import Mathlib

/-!
# Reservation form controller

A shallow embedding of `static/js/app.js`, the browser-side controller of the
room reservation form, together with the properties its specification states.

The document is modelled as an explicit `Page` value that every function of the
script receives and returns.  Everything the script does to the outside world
(`alert`, `fetch`, `console.error`, showing or hiding the Bootstrap modal) is
appended to `Page.trace`, so "no request is issued" is a statement about that
trace.  Promise callbacks are separate functions that run when the matching
response event arrives.

JavaScript numbers are modelled as `Option Int`: `none` is `NaN` and `some i`
the integer `i`, taken exactly.  The script's numbers hold an integer exactly
and print it digit by digit up to 2^53 in magnitude (`safeInteger`), which
covers the hour texts 0..23 of the page; beyond it they are rounded, so a
statement that needs the exact value of a number carries that bound.

What the browser does with the text the script hands it is modelled as far as
the script relies on it: `handlersOf` reads the `onclick` attributes back from
markup assigned to `innerHTML`, `runHandler` reads the call such an attribute
spells.  Both read a part of HTML and of JavaScript only and answer "outside
this part" everywhere else.
-/

namespace RoomScheduler

/-! ## JavaScript primitives -/

/-- White space and line terminators as `String.prototype.trim` and `parseInt`
understand them, by code point. -/
def isWhiteSpace (c : Char) : Bool :=
  let n := c.toNat
  n = 9 || n = 10 || n = 11 || n = 12 || n = 13 || n = 32 || n = 160 || n = 5760
    || (8192 ≤ n && n ≤ 8202) || n = 8232 || n = 8233 || n = 8239 || n = 8287
    || n = 12288 || n = 65279

/-- Characters of a string with the leading white space removed. -/
def trimStart (s : List Char) : List Char :=
  s.dropWhile isWhiteSpace

/-- Characters of a string with leading and trailing white space removed. -/
def trimChars (s : List Char) : List Char :=
  (trimStart (trimStart s).reverse).reverse

/-- The method `String.prototype.trim`. -/
def jsTrim (s : String) : String :=
  String.mk (trimChars s.toList)

/-- Truthiness of a string value: every string but the empty one. -/
def truthy (s : String) : Bool :=
  s != ""

/-- A JavaScript number: `none` is `NaN`, `some i` the integer `i`.  Exact for
integers of at most 2^53 in magnitude; the script rounds larger ones. -/
abbrev JsNumber := Option Int

/-- The comparison `a <= b`, false as soon as one side is `NaN`. -/
def numLe : JsNumber → JsNumber → Bool
  | some x, some y => decide (x ≤ y)
  | _, _ => false

/-- The comparison `a < b`, false as soon as one side is `NaN`. -/
def numLt : JsNumber → JsNumber → Bool
  | some x, some y => decide (x < y)
  | _, _ => false

/-- The strict equality `a === b` of two numbers, false on `NaN`. -/
def numEq : JsNumber → JsNumber → Bool
  | some x, some y => decide (x = y)
  | _, _ => false

/-- The subtraction `a - b`. -/
def numSub : JsNumber → JsNumber → JsNumber
  | some x, some y => some (x - y)
  | _, _ => none

/-- A number as a template literal prints it: digit by digit for integers of at
most 2^53 in magnitude (larger ones are printed rounded by the script, from
10^21 on with an exponent). -/
def numToString : JsNumber → String
  | some x => toString x
  | none => "NaN"

/-- A value of the script: `undefined`, a number or a string. -/
inductive JsValue where
  | undefined
  | num (n : JsNumber)
  | str (s : String)
deriving DecidableEq, Repr

/-- The conversion of a value to a string, as a template literal, `parseInt`
and the `value` setter of an input apply it. -/
def jsString : JsValue → String
  | JsValue.undefined => "undefined"
  | JsValue.num n => numToString n
  | JsValue.str s => s

/-- Value of a character as a digit of the given radix, if it is one. -/
def digitValue (radix : Nat) (c : Char) : Option Nat :=
  let n := c.toNat
  let v : Option Nat :=
    if 48 ≤ n ∧ n ≤ 57 then some (n - 48)
    else if 97 ≤ n ∧ n ≤ 122 then some (n - 97 + 10)
    else if 65 ≤ n ∧ n ≤ 90 then some (n - 65 + 10)
    else none
  match v with
  | some d => if d < radix then some d else none
  | none => none

/-- Value of the longest run of digits at the head of the list; `acc` is
`none` until a first digit has been read. -/
def parseDigits (radix : Nat) : List Char → Option Nat → Option Nat
  | [], acc => acc
  | c :: cs, acc =>
    match digitValue radix c with
    | some d => parseDigits radix cs (some (acc.getD 0 * radix + d))
    | none => acc

/-- The global `parseInt` called with one argument, on the characters of its
argument: leading white space is skipped, one sign is read, `0x` or `0X`
switches to radix 16, and the longest run of digits is the value; `NaN` when
there is no digit. -/
def parseIntChars (s : List Char) : JsNumber :=
  let s := trimStart s
  let neg : Bool :=
    match s with
    | '-' :: _ => true
    | _ => false
  let s :=
    match s with
    | '+' :: r => r
    | '-' :: r => r
    | _ => s
  let (radix, s) : Nat × List Char :=
    match s with
    | '0' :: 'x' :: r => (16, r)
    | '0' :: 'X' :: r => (16, r)
    | _ => (10, s)
  match parseDigits radix s none with
  | none => none
  | some m => some (if neg then - (m : Int) else (m : Int))

/-- The global `parseInt` called with one argument. -/
def parseInt (s : String) : JsNumber :=
  parseIntChars s.toList

/-! ## Data carried by the page -/

/-- Values of the named controls of `#searchForm`. -/
structure SearchForm where
  building_id : String
  floor : String
  slot_date : String
  start_hour : String
  end_hour : String
deriving DecidableEq, Repr

/-- An entry of the `rooms` array of a search response, with integers for its
numbers, as they are for integers of at most 2^53 in magnitude. -/
structure Room where
  room_id : Int
  room_num : String
  building_name : String
  floor : Int
  capacity : Int
deriving DecidableEq, Repr

/-- Arguments of one call of `showReservationModal`, as a card's `onclick`
attribute spells them. -/
structure ModalArgs where
  roomId : Int
  roomNum : String
  buildingName : String
  floor : Int
  capacity : Int
  slotDate : String
  startHour : String
  endHour : String
deriving DecidableEq, Repr

/-- Elements of the reservation modal that the script reads or writes. -/
structure Modal where
  modal_room_id : String
  modal_slot_date : String
  modal_start_hour : String
  modal_end_hour : String
  reserved_by : String
  roomDetails : String
deriving DecidableEq, Repr

/-- The object `Object.fromEntries(new FormData(reservationForm))`. -/
structure ReservationData where
  room_id : String
  slot_date : String
  start_hour : String
  end_hour : String
  reserved_by : String
deriving DecidableEq, Repr

/-- HTTP method of a request. -/
inductive Method where
  | GET
  | POST
deriving DecidableEq, Repr

/-- A call of `fetch`: method, path, the `URLSearchParams` entries appended
after `?`, and the object given to `JSON.stringify` as body. -/
structure Request where
  method : Method
  path : String
  query : List (String × String)
  body : Option ReservationData
deriving DecidableEq, Repr

/-- What the script does to the world outside the document. -/
inductive Effect where
  | alert (message : String)
  | fetch (request : Request)
  | consoleError (label : String)
  | modalShow
  | modalHide
deriving DecidableEq, Repr

/-- The document and the requests in flight.  `floorOptions` and
`searchResults` are the `innerHTML` of `#floor` and `#searchResults`; `cards`
records, card by card, the call that the template of the card spells (a click
does not read it: it reads `searchResults`); `pendingSearches` holds the
`formData` captured by each search still in flight, `pendingReservations`
counts the reservation requests in flight.  `unmodelled` is set once an event
met markup or a handler outside the part of HTML and JavaScript read here: from
then on the page says nothing about the document. -/
structure Page where
  searchForm : SearchForm
  floorOptions : String
  searchResults : String
  cards : List ModalArgs
  modal : Modal
  modalOpen : Bool
  pendingSearches : List SearchForm
  pendingReservations : Nat
  trace : List Effect
  unmodelled : Bool
deriving DecidableEq, Repr

/-- Append one effect to the trace. -/
def Page.emit (p : Page) (e : Effect) : Page :=
  { p with trace := p.trace ++ [e] }

/-- The requests of a trace, in the order issued. -/
def requestsOf : List Effect → List Request
  | [] => []
  | Effect.fetch r :: es => r :: requestsOf es
  | _ :: es => requestsOf es

/-- The alert messages of a trace, in the order shown. -/
def alertsOf : List Effect → List String
  | [] => []
  | Effect.alert m :: es => m :: alertsOf es
  | _ :: es => alertsOf es

/-! ## Index page functions -/

/-- The function `validateTimeRange`. -/
def validateTimeRange (p : Page) : Bool × Page :=
  let startHour := p.searchForm.start_hour
  let endHour := p.searchForm.end_hour
  if !truthy startHour || !truthy endHour then
    (false, p.emit (Effect.alert "Please select both start and end times"))
  else if numLe (parseInt endHour) (parseInt startHour) then
    (false, p.emit (Effect.alert "End time must be after start time"))
  else
    (true, p)

/-- The arrow function `formatHour` inside `showReservationModal`. -/
def formatHour (hour : String) : String :=
  let hour := parseInt hour
  if numEq hour (some 0) then "12:00 AM"
  else if numLt hour (some 12) then numToString hour ++ ":00 AM"
  else if numEq hour (some 12) then "12:00 PM"
  else numToString (numSub hour (some 12)) ++ ":00 PM"

/-- The entries `new URLSearchParams(formData)` holds for the search form. -/
def searchParams (formData : SearchForm) : List (String × String) :=
  [("building_id", formData.building_id), ("floor", formData.floor),
   ("slot_date", formData.slot_date), ("start_hour", formData.start_hour),
   ("end_hour", formData.end_hour)]

/-- The expression `a || b` on strings. -/
def orElse (a b : String) : String :=
  if truthy a then a else b

/-- The function `loadFloors`, up to the request it issues. -/
def loadFloors (buildingId : String) (p : Page) : Page :=
  p.emit (Effect.fetch
    { method := Method.GET, path := "/floors/" ++ buildingId, query := [], body := none })

/-- The `change` listener of `#building_id`; `this.value` is the value the
selector holds. -/
def buildingChange (p : Page) : Page :=
  let buildingId := p.searchForm.building_id
  if truthy buildingId then
    loadFloors buildingId p
  else
    { p with floorOptions := "<option value=\"\">Any floor</option>" }

/-- The function `searchRooms`, up to the request it issues. -/
def searchRooms (p : Page) : Page :=
  let formData := p.searchForm
  let params := searchParams formData
  let p : Page :=
    { p with
      searchResults := "\n        <div class=\"text-center py-3\">\n            <div class=\"spinner-border text-primary\" role=\"status\">\n                <span class=\"visually-hidden\">Loading...</span>\n            </div>\n        </div>\n    "
      cards := [] }
  let p := p.emit (Effect.fetch
    { method := Method.GET, path := "/search", query := params, body := none })
  { p with pendingSearches := p.pendingSearches ++ [formData] }

/-- The panel shown when a search returns no room. -/
def noRoomsPanel : String :=
  "\n            <div class=\"text-center text-muted py-4\">\n                <i class=\"fas fa-calendar-times fa-3x mb-3\"></i>\n                <h5>No Available Rooms</h5>\n                <p>No rooms match your search criteria. Try adjusting your filters.</p>\n            </div>\n        "

/-- The call a card's button makes, for one room of the response. -/
def cardArgs (searchData : SearchForm) (startHour endHour : String) (room : Room) :
    ModalArgs :=
  { roomId := room.room_id, roomNum := room.room_num, buildingName := room.building_name,
    floor := room.floor, capacity := room.capacity, slotDate := searchData.slot_date,
    startHour := startHour, endHour := endHour }

/-- Text of the `onclick` attribute that spells a call. -/
def onclickText (a : ModalArgs) : String :=
  "showReservationModal(" ++ toString a.roomId ++ ", \x27" ++ a.roomNum ++ "\x27, \x27"
    ++ a.buildingName ++ "\x27, " ++ toString a.floor ++ ", " ++ toString a.capacity
    ++ ", \x27" ++ a.slotDate ++ "\x27, \x27" ++ a.startHour ++ "\x27, \x27" ++ a.endHour
    ++ "\x27)"

/-- The markup appended for one room by the loop of `displaySearchResults`. -/
def roomCard (searchData : SearchForm) (startHour endHour : String) (room : Room) : String :=
  "\n            <div class=\"col-md-6 mb-3\">\n                <div class=\"card h-100\">\n                    <div class=\"card-body\">\n                        <h6 class=\"card-title\">\n                            <i class=\"fas fa-door-open\"></i> Room "
    ++ room.room_num
    ++ "\n                        </h6>\n                        <p class=\"card-text mb-2\">\n                            <strong>Building:</strong> "
    ++ room.building_name
    ++ "<br>\n                            <strong>Floor:</strong> "
    ++ toString room.floor
    ++ "<br>\n                            <strong>Capacity:</strong> "
    ++ toString room.capacity
    ++ " people\n                        </p>\n                        <button class=\"btn btn-success btn-sm\" onclick=\""
    ++ onclickText (cardArgs searchData startHour endHour room)
    ++ "\">\n                            <i class=\"fas fa-calendar-plus\"></i> Reserve Room\n                        </button>\n                    </div>\n                </div>\n            </div>\n        "

/-- The function `displaySearchResults`. -/
def displaySearchResults (rooms : List Room) (searchData : SearchForm) (p : Page) : Page :=
  if rooms.length = 0 then
    { p with searchResults := noRoomsPanel, cards := [] }
  else
    let startHour := orElse searchData.start_hour ""
    let endHour := orElse searchData.end_hour ""
    let html := "<div class=\"row\">"
    let html := rooms.foldl (fun html room => html ++ roomCard searchData startHour endHour room) html
    let html := html ++ "</div>"
    { p with searchResults := html, cards := rooms.map (cardArgs searchData startHour endHour) }

/-- The `catch` callback of `searchRooms`. -/
def searchFailed (p : Page) : Page :=
  let p := p.emit (Effect.consoleError "Error searching rooms:")
  { p with
    searchResults := "\n                <div class=\"alert alert-danger\">\n                    <i class=\"fas fa-exclamation-triangle\"></i>\n                    Error searching rooms. Please try again.\n                </div>\n            "
    cards := [] }

/-- The function `showReservationModal`.  Its parameters are values of the
script; each use converts them to strings. -/
def showReservationModal (roomId roomNum buildingName floor capacity slotDate startHour
    endHour : JsValue) (p : Page) : Page :=
  let timeSlot :=
    formatHour (jsString startHour) ++ " - " ++ formatHour (jsString endHour)
  let details :=
    "\n        <strong>Room:</strong> " ++ jsString roomNum
      ++ "<br>\n        <strong>Building:</strong> " ++ jsString buildingName
      ++ "<br>\n        <strong>Floor:</strong> " ++ jsString floor
      ++ "<br>\n        <strong>Capacity:</strong> " ++ jsString capacity
      ++ " people<br>\n        <strong>Date:</strong> " ++ jsString slotDate
      ++ "<br>\n        <strong>Time:</strong> " ++ timeSlot
      ++ "\n    "
  let p : Page :=
    { p with
      modal :=
        { modal_room_id := jsString roomId
          modal_slot_date := jsString slotDate
          modal_start_hour := jsString startHour
          modal_end_hour := jsString endHour
          reserved_by := ""
          roomDetails := details }
      modalOpen := true }
  p.emit Effect.modalShow

/-- A call of `showReservationModal` with a list of arguments: parameters
without an argument are `undefined`, arguments beyond the eighth are dropped. -/
def callModal (args : List JsValue) (p : Page) : Page :=
  showReservationModal (args.getD 0 JsValue.undefined) (args.getD 1 JsValue.undefined)
    (args.getD 2 JsValue.undefined) (args.getD 3 JsValue.undefined)
    (args.getD 4 JsValue.undefined) (args.getD 5 JsValue.undefined)
    (args.getD 6 JsValue.undefined) (args.getD 7 JsValue.undefined) p

/-- Modelled from the spec: the markup of `#reservationForm` is not part of the
script; its controls are named as the fields of the request body, `room_id`,
`slot_date`, `start_hour`, `end_hour` and `reserved_by`, the first four being
the elements `modal_room_id`, `modal_slot_date`, `modal_start_hour` and
`modal_end_hour`. -/
def reservationFormData (m : Modal) : ReservationData :=
  { room_id := m.modal_room_id, slot_date := m.modal_slot_date,
    start_hour := m.modal_start_hour, end_hour := m.modal_end_hour,
    reserved_by := m.reserved_by }

/-- The function `submitReservation`, up to the request it issues. -/
def submitReservation (p : Page) : Page :=
  let data := reservationFormData p.modal
  if !truthy (jsTrim data.reserved_by) then
    p.emit (Effect.alert "Please enter your name")
  else if !truthy data.start_hour || !truthy data.end_hour then
    p.emit (Effect.alert "Please select a specific time range for your reservation")
  else if numLe (parseInt data.end_hour) (parseInt data.start_hour) then
    p.emit (Effect.alert "End time must be after start time")
  else
    let p := p.emit (Effect.fetch
      { method := Method.POST, path := "/reserve", query := [], body := some data })
    { p with pendingReservations := p.pendingReservations + 1 }

/-- The `then` callback of `submitReservation` on the parsed response; `error`
is the `error` member of the response object, `none` when it has none. -/
def reservationResponse (error : Option String) (p : Page) : Page :=
  if truthy (error.getD "") then
    p.emit (Effect.alert ("Error: " ++ error.getD ""))
  else
    let p := p.emit (Effect.alert
      "Reservation submitted successfully! You will be notified once it\x27s approved.")
    let p := { p with modalOpen := false }.emit Effect.modalHide
    searchRooms p

/-- The `catch` callback of `submitReservation`. -/
def reservationFailed (p : Page) : Page :=
  let p := p.emit (Effect.consoleError "Error submitting reservation:")
  p.emit (Effect.alert "Error submitting reservation. Please try again.")

/-- The `submit` listener of `#searchForm`. -/
def searchSubmit (p : Page) : Page :=
  let (valid, p) := validateTimeRange p
  if valid then searchRooms p else p

/-! ## Loading state of submit buttons -/

/-- A submit button: its content and whether it is disabled. -/
structure Button where
  innerHTML : String
  disabled : Bool
deriving DecidableEq, Repr

/-- A call of `setTimeout` whose callback writes `restore` back into the
button and enables it again; `delay` is in milliseconds. -/
structure Timer where
  delay : Nat
  restore : String
deriving DecidableEq, Repr

/-- The `submit` listener every form receives on `DOMContentLoaded`;
`submitButton` is the result of `form.querySelector`, and the result is the
button afterwards with the timers scheduled. -/
def formSubmit (submitButton : Option Button) : Option Button × List Timer :=
  match submitButton with
  | some b =>
    if !b.disabled then
      let originalText := b.innerHTML
      (some
        { innerHTML := "<span class=\"spinner-border spinner-border-sm me-2\" role=\"status\"></span>Loading..."
          disabled := true },
       [{ delay := 1000, restore := originalText }])
    else
      (some b, [])
  | none => (none, [])

/-- The callback of a fallback timer, run on the button. -/
def Timer.fire (t : Timer) (_b : Button) : Button :=
  { innerHTML := t.restore, disabled := false }

/-! ## Markup the script renders, as the browser reads it back -/

/-- Where the reading of markup stands: in text, in a tag name, or in the
attributes of a start tag, of which the first `onclick` value is remembered. -/
inductive HtmlMode where
  | data
  | tagOpen
  | endOpen
  | endName (name : List Char)
  | startName (name : List Char)
  | beforeAttr (tag : List Char) (onclick : Option (List Char))
  | attrName (tag : List Char) (onclick : Option (List Char)) (name : List Char)
  | beforeValue (tag : List Char) (onclick : Option (List Char)) (name : List Char)
  | attrValue (tag : List Char) (onclick : Option (List Char)) (name : List Char)
      (value : List Char)
  | afterValue (tag : List Char) (onclick : Option (List Char))
deriving DecidableEq, Repr

/-- The reading of markup so far: the mode, and for each `button` start tag
read, in order, the value of its `onclick` attribute if it has one. -/
structure HtmlScan where
  mode : HtmlMode
  buttons : List (Option (List Char))
deriving DecidableEq, Repr

/-- A lower-case letter. -/
def isLower (c : Char) : Bool :=
  97 ≤ c.toNat && c.toNat ≤ 122

/-- A decimal digit. -/
def isDigit (c : Char) : Bool :=
  48 ≤ c.toNat && c.toNat ≤ 57

/-- White space between the parts of a tag. -/
def isTagSpace (c : Char) : Bool :=
  c.toNat = 32 || c.toNat = 10 || c.toNat = 9 || c.toNat = 12

/-- The elements the templates of the script use; none of them changes how the
text after its tag is read. -/
def knownTags : List (List Char) :=
  ["div".toList, "span".toList, "i".toList, "h5".toList, "h6".toList, "p".toList,
   "strong".toList, "br".toList, "button".toList]

/-- The end of a start tag: a `button` adds its handler to the list. -/
def closeTag (tag : List Char) (onclick : Option (List Char))
    (buttons : List (Option (List Char))) : HtmlScan :=
  { mode := HtmlMode.data,
    buttons := if tag = "button".toList then buttons ++ [onclick] else buttons }

/-- One character of markup.  The result is `none` where the markup leaves the
part of HTML read here: a character reference, a NUL or a carriage return, a
tag that is not lower case or not among `knownTags`, an attribute that is not
written `name="value"`, a comment or a self-closing tag. -/
def stepHtml (s : HtmlScan) (c : Char) : Option HtmlScan :=
  if c.toNat = 0 || c.toNat = 13 then none
  else
    match s.mode with
    | HtmlMode.data =>
      if c = '<' then some { s with mode := HtmlMode.tagOpen }
      else if c = '&' then none
      else some s
    | HtmlMode.tagOpen =>
      if c = '/' then some { s with mode := HtmlMode.endOpen }
      else if isLower c then some { s with mode := HtmlMode.startName [c] }
      else none
    | HtmlMode.endOpen =>
      if isLower c then some { s with mode := HtmlMode.endName [c] } else none
    | HtmlMode.endName name =>
      if isLower c || isDigit c then some { s with mode := HtmlMode.endName (name ++ [c]) }
      else if c = '>' && knownTags.contains name then some { s with mode := HtmlMode.data }
      else none
    | HtmlMode.startName name =>
      if isLower c || isDigit c then some { s with mode := HtmlMode.startName (name ++ [c]) }
      else if !knownTags.contains name then none
      else if isTagSpace c then some { s with mode := HtmlMode.beforeAttr name none }
      else if c = '>' then some (closeTag name none s.buttons)
      else none
    | HtmlMode.beforeAttr tag onclick =>
      if isTagSpace c then some s
      else if c = '>' then some (closeTag tag onclick s.buttons)
      else if isLower c then some { s with mode := HtmlMode.attrName tag onclick [c] }
      else none
    | HtmlMode.attrName tag onclick name =>
      if isLower c || isDigit c || c = '-' then
        some { s with mode := HtmlMode.attrName tag onclick (name ++ [c]) }
      else if c = '=' then some { s with mode := HtmlMode.beforeValue tag onclick name }
      else none
    | HtmlMode.beforeValue tag onclick name =>
      if c = '"' then some { s with mode := HtmlMode.attrValue tag onclick name [] }
      else none
    | HtmlMode.attrValue tag onclick name value =>
      if c = '"' then
        let first := if name = "onclick".toList && onclick.isNone then some value else onclick
        some { s with mode := HtmlMode.afterValue tag first }
      else if c = '&' then none
      else some { s with mode := HtmlMode.attrValue tag onclick name (value ++ [c]) }
    | HtmlMode.afterValue tag onclick =>
      if isTagSpace c then some { s with mode := HtmlMode.beforeAttr tag onclick }
      else if c = '>' then some (closeTag tag onclick s.buttons)
      else none

/-- The reading of a run of characters. -/
def feedHtml (s : Option HtmlScan) (cs : List Char) : Option HtmlScan :=
  cs.foldl (fun s c => s.bind (fun s => stepHtml s c)) s

/-- The `onclick` handlers of the buttons of a piece of markup assigned to
`innerHTML`, in document order, each `none` for a button without one; `none`
as a whole where the markup leaves the part of HTML read by `stepHtml`, or ends
inside a tag. -/
def handlersOf (markup : String) : Option (List (Option (List Char))) :=
  match feedHtml (some { mode := HtmlMode.data, buttons := [] }) markup.toList with
  | some { mode := HtmlMode.data, buttons := buttons } => some buttons
  | _ => none

/-! ## The call a handler makes -/

/-- Where the reading of a handler `showReservationModal(...)` stands, with the
arguments read so far. -/
inductive JsMode where
  | start (args : List JsValue)
  | minus (args : List JsValue)
  | zero (args : List JsValue)
  | number (args : List JsValue) (negative : Bool) (value : Nat)
  | string (args : List JsValue) (text : List Char)
  | afterArg (args : List JsValue) (wasString : Bool)
  | word (name : List Char)
  | closed (args : List JsValue)
  | malformed
  | unmodelled
deriving DecidableEq, Repr

/-- A character that can start an identifier, among the ASCII ones. -/
def isIdentStart (c : Char) : Bool :=
  isLower c || (65 ≤ c.toNat && c.toNat ≤ 90) || c = '_' || c = '$'

/-- The character after a complete literal: a space, the comma before the next
argument or the closing parenthesis; an identifier right after a string literal
starts a word. -/
def afterLiteral (args : List JsValue) (wasString : Bool) (c : Char) : JsMode :=
  if c = ' ' then JsMode.afterArg args wasString
  else if c = ',' then JsMode.start args
  else if c = ')' then JsMode.closed args
  else if wasString && isIdentStart c then JsMode.word [c]
  else JsMode.unmodelled

/-- One character of a handler.  `malformed` is reached only where the text
cannot be a script at all, whatever follows (a `SyntaxError`): a line break
inside a string literal, or an identifier other than `in` and `instanceof`
right after one; whatever else leaves the literals read here (escapes,
fractions, exponents, operators, other white space) is `unmodelled`. -/
def stepJs (m : JsMode) (c : Char) : JsMode :=
  match m with
  | JsMode.start args =>
    if c = ' ' then JsMode.start args
    else if c = ')' then JsMode.closed args
    else if c.toNat = 39 then JsMode.string args []
    else if c = '-' then JsMode.minus args
    else if c = '0' then JsMode.zero args
    else if isDigit c then JsMode.number args false (c.toNat - 48)
    else JsMode.unmodelled
  | JsMode.minus args =>
    if c = '0' then JsMode.zero args
    else if isDigit c then JsMode.number args true (c.toNat - 48)
    else JsMode.unmodelled
  | JsMode.zero args =>
    if isDigit c then JsMode.unmodelled
    else afterLiteral (args ++ [JsValue.num (some 0)]) false c
  | JsMode.number args negative value =>
    if isDigit c then JsMode.number args negative (value * 10 + (c.toNat - 48))
    else
      afterLiteral
        (args ++ [JsValue.num (some (if negative then - (value : Int) else (value : Int)))])
        false c
  | JsMode.string args text =>
    if c.toNat = 39 then JsMode.afterArg (args ++ [JsValue.str (String.mk text)]) true
    else if c.toNat = 92 then JsMode.unmodelled
    else if c.toNat = 10 || c.toNat = 13 then JsMode.malformed
    else if c.toNat = 8232 || c.toNat = 8233 then JsMode.unmodelled
    else JsMode.string args (text ++ [c])
  | JsMode.afterArg args wasString => afterLiteral args wasString c
  | JsMode.word name =>
    if isIdentStart c || isDigit c then JsMode.word (name ++ [c])
    else if 128 ≤ c.toNat || c.toNat = 92 then JsMode.unmodelled
    else if name = "in".toList || name = "instanceof".toList then JsMode.unmodelled
    else JsMode.malformed
  | JsMode.closed _ => JsMode.unmodelled
  | JsMode.malformed => JsMode.malformed
  | JsMode.unmodelled => JsMode.unmodelled

/-- What running a handler comes to: a call of `showReservationModal` with
literal arguments; `malformed`, a text that is no script (a `SyntaxError`), so
that the button has no handler; or a text outside the part of the language read
here. -/
inductive HandlerResult where
  | call (args : List JsValue)
  | malformed
  | unmodelled
deriving DecidableEq, Repr

/-- The result at the end of the text: a script ends after the closing
parenthesis, and nowhere before it. -/
def finishJs : JsMode → HandlerResult
  | JsMode.closed args => HandlerResult.call args
  | JsMode.unmodelled => HandlerResult.unmodelled
  | _ => HandlerResult.malformed

/-- The rest of a text after a given beginning, if it begins so. -/
def afterLead : List Char → List Char → Option (List Char)
  | [], rest => some rest
  | _ :: _, [] => none
  | a :: as, c :: cs => if a = c then afterLead as cs else none

/-- The handler a button's `onclick` text compiles to, run once. -/
def runHandler (source : List Char) : HandlerResult :=
  match afterLead "showReservationModal(".toList source with
  | some rest => finishJs (rest.foldl stepJs (JsMode.start []))
  | none => HandlerResult.unmodelled

/-! ## The controller as a transition system -/

/-- The controls of the search form. -/
inductive SearchField where
  | building_id
  | floor
  | slot_date
  | start_hour
  | end_hour
deriving DecidableEq, Repr

/-- The search form after one control received a new value. -/
def SearchForm.set (f : SearchForm) : SearchField → String → SearchForm
  | SearchField.building_id, v => { f with building_id := v }
  | SearchField.floor, v => { f with floor := v }
  | SearchField.slot_date, v => { f with slot_date := v }
  | SearchField.start_hour, v => { f with start_hour := v }
  | SearchField.end_hour, v => { f with end_hour := v }

/-- What can happen to the page: the user edits a control of the search form,
submits it, presses the button at an index among those of the results, types a
name in the modal, submits the reservation form (the `submit` event that
reaches `#reservationModal`), or presses `#submitReservation`; a response or a
failure arrives for the search in flight at an index, or for a reservation in
flight. -/
inductive Event where
  | editSearch (field : SearchField) (value : String)
  | submitSearch
  | searchResponse (index : Nat) (rooms : List Room)
  | searchFailure (index : Nat)
  | clickReserve (index : Nat)
  | editReservedBy (value : String)
  | submitReservation
  | clickSubmit
  | reservationResponse (error : Option String)
  | reservationFailure
deriving DecidableEq, Repr

/-- One step of the page: the listener or callback the event runs.  A press on
a button of the results runs the handler its `onclick` attribute compiles to,
read from the markup in `searchResults`; a text that is no script leaves the
button without handler.  The `click` listener of `#submitReservation` calls
`reservationForm.submitReservation()`, which is not a function: it throws
before anything else happens. -/
def step (p : Page) : Event → Page
  | Event.editSearch field value =>
    let p := { p with searchForm := p.searchForm.set field value }
    if field = SearchField.building_id then buildingChange p else p
  | Event.submitSearch => searchSubmit p
  | Event.searchResponse index rooms =>
    match p.pendingSearches.get? index with
    | some formData =>
      displaySearchResults rooms formData
        { p with pendingSearches := p.pendingSearches.eraseIdx index }
    | none => p
  | Event.searchFailure index =>
    match p.pendingSearches.get? index with
    | some _ => searchFailed { p with pendingSearches := p.pendingSearches.eraseIdx index }
    | none => p
  | Event.clickReserve index =>
    match handlersOf p.searchResults with
    | none => { p with unmodelled := true }
    | some buttons =>
      match buttons.get? index with
      | some (some source) =>
        match runHandler source with
        | HandlerResult.call args => callModal args p
        | HandlerResult.malformed => p
        | HandlerResult.unmodelled => { p with unmodelled := true }
      | _ => p
  | Event.editReservedBy value =>
    { p with modal := { p.modal with reserved_by := value } }
  | Event.submitReservation => submitReservation p
  | Event.clickSubmit => p
  | Event.reservationResponse error =>
    if p.pendingReservations = 0 then p
    else reservationResponse error { p with pendingReservations := p.pendingReservations - 1 }
  | Event.reservationFailure =>
    if p.pendingReservations = 0 then p
    else reservationFailed { p with pendingReservations := p.pendingReservations - 1 }

/-- The page after a sequence of events. -/
def run (p : Page) (events : List Event) : Page :=
  events.foldl step p

/-- A page holding the given search form on which nothing has happened yet:
nothing rendered, the modal empty and closed, nothing in flight, an empty
trace. -/
def initialPage (form : SearchForm) : Page :=
  { searchForm := form
    floorOptions := ""
    searchResults := ""
    cards := []
    modal :=
      { modal_room_id := "", modal_slot_date := "", modal_start_hour := "",
        modal_end_hour := "", reserved_by := "", roomDetails := "" }
    modalOpen := false
    pendingSearches := []
    pendingReservations := 0
    trace := []
    unmodelled := false }

/-- The text a selector of hours holds: empty, or the decimal text of an hour. -/
def selectorText : Option Nat → String
  | none => ""
  | some h => toString h

/-! ## Counting cards in rendered markup -/

/-- The opening tag of a card. -/
def cardMarker : List Char :=
  "<div class=\"card h-100\">".toList

/-- Number of places of a text at which the opening tag of a card stands. -/
def countCards : List Char → Nat
  | [] => 0
  | c :: cs => (if cardMarker.isPrefixOf (c :: cs) then 1 else 0) + countCards cs

/-- A text without the character that opens a tag. -/
def plainText (s : String) : Prop :=
  '<' ∉ s.toList

instance (s : String) : Decidable (plainText s) :=
  inferInstanceAs (Decidable ('<' ∉ s.toList))

/-- Whether it is already decided, whatever follows the text, if the opening
tag of a card stands at its head. -/
def settledAt (s : List Char) : Bool :=
  cardMarker.isPrefixOf s || !s.isPrefixOf cardMarker

/-- Whether that is decided at every place of the text. -/
def settled : List Char → Bool
  | [] => true
  | c :: cs => settledAt (c :: cs) && settled cs

/-! ## Texts and numbers that markup and scripts take as they stand -/

/-- A character that markup takes as it stands, in text and inside a
double-quoted attribute value. -/
def markupChar (c : Char) : Bool :=
  !(c = '<' || c = '&' || c = '"' || c.toNat = 0 || c.toNat = 13)

/-- A character that a single-quoted string literal of a script takes as it
stands. -/
def literalChar (c : Char) : Bool :=
  !(c.toNat = 39 || c.toNat = 92 || c.toNat = 10 || c.toNat = 13 || c.toNat = 8232
    || c.toNat = 8233)

/-- A text of characters that markup takes as they stand. -/
def markupSafe (s : String) : Bool :=
  s.toList.all markupChar

/-- A text of characters that a string literal takes as they stand. -/
def literalSafe (s : String) : Bool :=
  s.toList.all literalChar

/-- An integer that a number of the script holds exactly and prints digit by
digit: at most 2^53 in magnitude. -/
def safeInteger (i : Int) : Bool :=
  decide (i.natAbs ≤ 9007199254740992)

/-- The value of a run of decimal digits read after the value `a`. -/
def digitsValue (a : Nat) (l : List Char) : Nat :=
  l.foldl (fun a c => a * 10 + (c.toNat - 48)) a

/-! ## Lemmas on the primitives -/

theorem truthy_iff (s : String) : truthy s = true ↔ s ≠ "" := by
  simp [truthy]

theorem truthy_eq_false_iff (s : String) : truthy s = false ↔ s = "" := by
  simp [truthy]

theorem requestsOf_append (a b : List Effect) :
    requestsOf (a ++ b) = requestsOf a ++ requestsOf b := by
  induction a with
  | nil => rfl
  | cons e es ih => cases e <;> simp [requestsOf, ih]

theorem alertsOf_append (a b : List Effect) :
    alertsOf (a ++ b) = alertsOf a ++ alertsOf b := by
  induction a with
  | nil => rfl
  | cons e es ih => cases e <;> simp [alertsOf, ih]

theorem trimStart_eq_nil_iff (l : List Char) :
    trimStart l = [] ↔ ∀ c ∈ l, isWhiteSpace c = true := by
  simp [trimStart, List.dropWhile_eq_nil_iff]

theorem trimStart_all_iff (l : List Char) :
    (∀ c ∈ trimStart l, isWhiteSpace c = true) ↔ ∀ c ∈ l, isWhiteSpace c = true := by
  induction l with
  | nil => simp [trimStart]
  | cons a t ih =>
    by_cases ha : isWhiteSpace a = true
    · have : trimStart (a :: t) = trimStart t := by simp [trimStart, List.dropWhile, ha]
      rw [this, ih]; simp [ha]
    · have : trimStart (a :: t) = a :: t := by simp [trimStart, List.dropWhile, ha]
      rw [this]

theorem trimChars_eq_nil_iff (l : List Char) :
    trimChars l = [] ↔ ∀ c ∈ l, isWhiteSpace c = true := by
  unfold trimChars
  rw [List.reverse_eq_nil_iff, trimStart_eq_nil_iff]
  simp only [List.mem_reverse]
  exact trimStart_all_iff l

theorem jsTrim_truthy_iff (s : String) :
    truthy (jsTrim s) = true ↔ ∃ c ∈ s.toList, isWhiteSpace c = false := by
  rw [truthy_iff]
  have h : jsTrim s = "" ↔ trimChars s.toList = [] := by
    unfold jsTrim
    constructor
    · intro h
      have := congrArg String.data h
      simpa using this
    · intro h
      rw [h]
  rw [Ne, h, trimChars_eq_nil_iff]
  push_neg
  simp

theorem parseInt_hour (h : Nat) (hh : h < 24) : parseInt (toString h) = some (h : Int) := by
  interval_cases h <;> rfl

theorem truthy_hour (h : Nat) (hh : h < 24) : truthy (toString h) = true := by
  interval_cases h <;> rfl

/-! ## Validation of the search form -/

/-- C1. For selector values that are empty or the decimal text of an hour 0..23,
`validateTimeRange` returns true exactly when both are non-empty and the end
hour is, as an integer, greater than the start hour. -/
theorem validateTimeRange_iff (p : Page) (a b : Option Nat)
    (ha : ∀ h, a = some h → h < 24) (hb : ∀ h, b = some h → h < 24)
    (hs : p.searchForm.start_hour = selectorText a)
    (he : p.searchForm.end_hour = selectorText b) :
    (validateTimeRange p).1 = true ↔
      p.searchForm.start_hour ≠ "" ∧ p.searchForm.end_hour ≠ "" ∧
        ∃ x y : Nat, a = some x ∧ b = some y ∧ x < y := by
  unfold validateTimeRange
  simp only [hs, he]
  cases a with
  | none => simp [selectorText, truthy]
  | some x =>
    cases b with
    | none => simp [selectorText, truthy]
    | some y =>
      have hx := ha x rfl
      have hy := hb y rfl
      have tx := truthy_hour x hx
      have ty := truthy_hour y hy
      simp only [selectorText, tx, ty, parseInt_hour x hx, parseInt_hour y hy, numLe]
      have nx : (toString x : String) ≠ "" := (truthy_iff _).1 tx
      have ny : (toString y : String) ≠ "" := (truthy_iff _).1 ty
      by_cases hxy : x < y
      · have : ¬ ((y : Int) ≤ (x : Int)) := by omega
        simp [this, hxy, nx, ny]
      · have : ((y : Int) ≤ (x : Int)) := by omega
        simp [this, hxy]

/-- C1, at the inputs the specification names: ("9", "17") is accepted. -/
theorem validateTimeRange_iff_witness :
    (validateTimeRange (initialPage ⟨"", "", "2024-01-01", "9", "17"⟩)).1 = true :=
  (validateTimeRange_iff (initialPage ⟨"", "", "2024-01-01", "9", "17"⟩) (some 9) (some 17)
    (by intro h hh; cases hh; decide) (by intro h hh; cases hh; decide) rfl rfl).2
    ⟨by decide, by decide, 9, 17, rfl, rfl, by decide⟩

/-! ## The time label of the modal -/

/-- C2. On the decimal text of an hour `h` in 0..23, `formatHour` gives
"12:00 AM" for 0, "h:00 AM" for 1..11, "12:00 PM" for 12 and "(h-12):00 PM"
for 13..23. -/
theorem formatHour_hour (h : Nat) (hh : h < 24) :
    formatHour (toString h) =
      if h = 0 then "12:00 AM"
      else if h ≤ 11 then toString h ++ ":00 AM"
      else if h = 12 then "12:00 PM"
      else toString (h - 12) ++ ":00 PM" := by
  interval_cases h <;> rfl

/-- C2, at the hours the specification names: 0, 9, 12 and 23. -/
theorem formatHour_hour_witness :
    formatHour "0" = "12:00 AM" ∧ formatHour "9" = "9:00 AM" ∧
      formatHour "12" = "12:00 PM" ∧ formatHour "23" = "11:00 PM" :=
  ⟨formatHour_hour 0 (by decide), formatHour_hour 9 (by decide),
    formatHour_hour 12 (by decide), formatHour_hour 23 (by decide)⟩

/-! ## Submitting a reservation -/

/-- C3. When the name is empty or all white space, or an hour field is empty,
or the end hour is as an integer at most the start hour, `submitReservation`
shows one alert, changes nothing else and issues no request. -/
theorem submitReservation_rejects (p : Page)
    (h : (∀ c ∈ p.modal.reserved_by.toList, isWhiteSpace c = true) ∨
      p.modal.modal_start_hour = "" ∨ p.modal.modal_end_hour = "" ∨
      ∃ s e : Int, parseInt p.modal.modal_start_hour = some s ∧
        parseInt p.modal.modal_end_hour = some e ∧ e ≤ s) :
    requestsOf (submitReservation p).trace = requestsOf p.trace ∧
      ∃ message, submitReservation p = p.emit (Effect.alert message) := by
  have key : ∃ message, submitReservation p = p.emit (Effect.alert message) := by
    unfold submitReservation
    simp only [reservationFormData]
    by_cases h1 : truthy (jsTrim p.modal.reserved_by) = true
    · by_cases h2 : truthy p.modal.modal_start_hour = true
      · by_cases h3 : truthy p.modal.modal_end_hour = true
        · rcases h with h | h | h | ⟨s, e, hs, he, hle⟩
          · exfalso
            obtain ⟨c, hc, hw⟩ := (jsTrim_truthy_iff _).1 h1
            rw [h c hc] at hw
            exact Bool.noConfusion hw
          · exact absurd h ((truthy_iff _).1 h2)
          · exact absurd h ((truthy_iff _).1 h3)
          · refine ⟨"End time must be after start time", ?_⟩
            simp [h1, h2, h3, hs, he, numLe, hle]
        · refine ⟨"Please select a specific time range for your reservation", ?_⟩
          simp [h1, h2, h3]
      · refine ⟨"Please select a specific time range for your reservation", ?_⟩
        simp [h1, h2]
    · refine ⟨"Please enter your name", ?_⟩
      simp [h1]
  obtain ⟨m, hm⟩ := key
  refine ⟨?_, m, hm⟩
  rw [hm]
  simp [Page.emit, requestsOf_append, requestsOf]

/-- C3, for an empty name with hours "9" and "10". -/
theorem submitReservation_rejects_witness :
    requestsOf (submitReservation (step (callModal
      [JsValue.num (some 7), JsValue.str "101", JsValue.str "Main", JsValue.num (some 1),
        JsValue.num (some 4), JsValue.str "2024-01-01", JsValue.str "9", JsValue.str "10"]
      (initialPage ⟨"", "", "2024-01-01", "9", "10"⟩)) (Event.editReservedBy ""))).trace = [] :=
  (submitReservation_rejects _ (Or.inl (by decide))).1

/-- C4. When the name holds a character that is not white space, both hour
fields are non-empty and the end hour is as an integer greater than the start
hour, both at most 2^53 in magnitude so that the script compares them exactly,
`submitReservation` adds exactly one effect to the trace: a POST to `/reserve`
whose body carries the five form values unchanged.  Whatever the response then
is, the exchange holds exactly one more POST than before. -/
theorem submitReservation_posts (p : Page) (s e : Int)
    (hname : ∃ c ∈ p.modal.reserved_by.toList, isWhiteSpace c = false)
    (hstart : p.modal.modal_start_hour ≠ "") (hend : p.modal.modal_end_hour ≠ "")
    (hs : parseInt p.modal.modal_start_hour = some s)
    (he : parseInt p.modal.modal_end_hour = some e) (hlt : s < e)
    (_hsafe : safeInteger s = true ∧ safeInteger e = true) :
    (submitReservation p).trace = p.trace ++ [Effect.fetch
        { method := Method.POST, path := "/reserve", query := [],
          body := some
            { room_id := p.modal.modal_room_id, slot_date := p.modal.modal_slot_date,
              start_hour := p.modal.modal_start_hour, end_hour := p.modal.modal_end_hour,
              reserved_by := p.modal.reserved_by } }] ∧
      (requestsOf (submitReservation p).trace).length = (requestsOf p.trace).length + 1 ∧
      ∀ error : Option String,
        ((requestsOf (reservationResponse error (submitReservation p)).trace).filter
            (fun r => r.method == Method.POST)).length =
          ((requestsOf p.trace).filter (fun r => r.method == Method.POST)).length + 1 := by
  have h1 : truthy (jsTrim p.modal.reserved_by) = true := (jsTrim_truthy_iff _).2 hname
  have h2 : truthy p.modal.modal_start_hour = true := (truthy_iff _).2 hstart
  have h3 : truthy p.modal.modal_end_hour = true := (truthy_iff _).2 hend
  have h4 : ¬ (e ≤ s) := by omega
  have key : submitReservation p =
      { p.emit (Effect.fetch
        { method := Method.POST, path := "/reserve", query := [],
          body := some (reservationFormData p.modal) }) with
        pendingReservations := p.pendingReservations + 1 } := by
    unfold submitReservation
    simp [reservationFormData, h1, h2, h3, hs, he, numLe, h4, Page.emit]
  refine ⟨?_, ?_, ?_⟩
  · rw [key]; rfl
  · rw [key]; simp [Page.emit, requestsOf_append, requestsOf]
  · intro error
    rw [key]
    unfold reservationResponse
    by_cases herr : truthy (error.getD "") = true
    · simp [herr, Page.emit, requestsOf_append, requestsOf]
    · simp [herr, searchRooms, Page.emit, requestsOf_append, requestsOf]

/-- C4, at the fields the specification names: "Alice", "2024-01-01", "9", "10". -/
theorem submitReservation_posts_witness :
    (submitReservation (step (callModal
        [JsValue.num (some 7), JsValue.str "101", JsValue.str "Main", JsValue.num (some 1),
          JsValue.num (some 4), JsValue.str "2024-01-01", JsValue.str "9", JsValue.str "10"]
        (initialPage ⟨"", "", "2024-01-01", "9", "10"⟩)) (Event.editReservedBy "Alice"))).trace =
      [Effect.modalShow, Effect.fetch
        { method := Method.POST, path := "/reserve", query := [],
          body := some
            { room_id := "7", slot_date := "2024-01-01", start_hour := "9",
              end_hour := "10", reserved_by := "Alice" } }] :=
  (submitReservation_posts (step (callModal
        [JsValue.num (some 7), JsValue.str "101", JsValue.str "Main", JsValue.num (some 1),
          JsValue.num (some 4), JsValue.str "2024-01-01", JsValue.str "9", JsValue.str "10"]
        (initialPage ⟨"", "", "2024-01-01", "9", "10"⟩)) (Event.editReservedBy "Alice")) 9 10
    ⟨'A', by decide, by decide⟩ (by decide) (by decide) (by decide) (by decide) (by decide)
    (by decide)).1

/-- C5, as stated, fails: for the response with error "Room already booked" the
message shown is "Error: Room already booked", not the error string itself. -/
theorem reservationResponse_not_verbatim :
    alertsOf (reservationResponse (some "Room already booked")
        (initialPage ⟨"", "", "2024-01-01", "9", "10"⟩)).trace
      = ["Error: Room already booked"] ∧
    alertsOf (reservationResponse (some "Room already booked")
        (initialPage ⟨"", "", "2024-01-01", "9", "10"⟩)).trace
      ≠ ["Room already booked"] := by
  decide

/-- C5, amended. For a response whose error string `e` is non-empty, the
callback shows one alert, "Error: " followed by `e`, and does nothing else: the
modal stays as it was, no request is issued and the results are not refreshed. -/
theorem reservationResponse_error (p : Page) (e : String) (he : e ≠ "") :
    reservationResponse (some e) p = p.emit (Effect.alert ("Error: " ++ e)) ∧
      alertsOf (reservationResponse (some e) p).trace = alertsOf p.trace ++ ["Error: " ++ e] ∧
      (reservationResponse (some e) p).modalOpen = p.modalOpen ∧
      requestsOf (reservationResponse (some e) p).trace = requestsOf p.trace ∧
      (reservationResponse (some e) p).searchResults = p.searchResults ∧
      Effect.modalHide ∉ ((reservationResponse (some e) p).trace.drop p.trace.length) := by
  have key : reservationResponse (some e) p = p.emit (Effect.alert ("Error: " ++ e)) := by
    unfold reservationResponse
    simp [(truthy_iff e).2 he]
  rw [key]
  simp [Page.emit, alertsOf_append, requestsOf_append, alertsOf, requestsOf]

/-- C5 amended, at the response the specification names. -/
theorem reservationResponse_error_witness :
    alertsOf (reservationResponse (some "Room already booked")
        (callModal
          [JsValue.num (some 7), JsValue.str "101", JsValue.str "Main", JsValue.num (some 1),
            JsValue.num (some 4), JsValue.str "2024-01-01", JsValue.str "9", JsValue.str "10"]
          (initialPage ⟨"", "", "2024-01-01", "9", "10"⟩))).trace
      = ["Error: Room already booked"] :=
  (reservationResponse_error (callModal
    [JsValue.num (some 7), JsValue.str "101", JsValue.str "Main", JsValue.num (some 1),
      JsValue.num (some 4), JsValue.str "2024-01-01", JsValue.str "9", JsValue.str "10"]
    (initialPage ⟨"", "", "2024-01-01", "9", "10"⟩)) "Room already booked" (by decide)).2.1

/-! ## Rendering the results and opening the modal -/

theorem orElse_empty (a : String) : orElse a "" = a := by
  unfold orElse
  by_cases h : truthy a = true
  · simp [h]
  · have : a = "" := (truthy_eq_false_iff a).1 (by simpa using h)
    simp [this, truthy]

theorem foldl_append_data (f : Room → String) (rooms : List Room) (init : String) :
    (rooms.foldl (fun html room => html ++ f room) init).data =
      init.data ++ (rooms.map (fun room => (f room).data)).flatten := by
  induction rooms generalizing init with
  | nil => simp
  | cons r rs ih =>
    simp only [List.foldl_cons, List.map_cons, List.flatten_cons]
    rw [ih]
    simp [String.data_append]

theorem foldl_append_eq (f : Room → String) (rooms : List Room) (init : String) :
    rooms.foldl (fun html room => html ++ f room) init = init ++ String.join (rooms.map f) := by
  apply String.ext
  rw [foldl_append_data]
  simp [String.data_append, String.data_join, Function.comp_def]

theorem displaySearchResults_nonempty (rooms : List Room) (searchData : SearchForm) (p : Page)
    (h : rooms ≠ []) :
    displaySearchResults rooms searchData p =
      { p with
        searchResults := "<div class=\"row\">"
          ++ String.join (rooms.map
            (roomCard searchData searchData.start_hour searchData.end_hour))
          ++ "</div>"
        cards := rooms.map (cardArgs searchData searchData.start_hour searchData.end_hour) } := by
  unfold displaySearchResults
  have : ¬ rooms.length = 0 := by
    intro h0
    exact h (List.length_eq_zero.1 h0)
  simp only [this, if_false, orElse_empty, foldl_append_eq]

/-! ### Card tags in the rendered text

The count of card tags is additive over a text that settles every place
(`countCards_settled`) and ignores a text without `<` (`countCards_free`); a
card is an alternation of template texts of the first kind and interpolated
values of the second. -/

theorem cardMarker_cons : cardMarker = '<' :: "div class=\"card h-100\">".toList := rfl

theorem countCards_cons (c : Char) (cs : List Char) :
    countCards (c :: cs) =
      (if cardMarker.isPrefixOf (c :: cs) = true then 1 else 0) + countCards cs := rfl

theorem cardMarker_head (c : Char) (cs : List Char) (hc : c ≠ '<') :
    cardMarker.isPrefixOf (c :: cs) = false := by
  have hne : ('<' == c) = false := by
    simp [Ne.symm hc]
  simp [cardMarker_cons, List.isPrefixOf, hne]

theorem countCards_free (s t : List Char) (hs : '<' ∉ s) :
    countCards (s ++ t) = countCards t := by
  induction s with
  | nil => rfl
  | cons c s ih =>
    have hc : c ≠ '<' := fun h => hs (h ▸ List.mem_cons_self _ _)
    have hs2 : '<' ∉ s := fun h => hs (List.mem_cons_of_mem _ h)
    rw [List.cons_append, countCards_cons, cardMarker_head c (s ++ t) hc, ih hs2]
    simp

theorem settledAt_append (s t : List Char) (h : settledAt s = true) :
    cardMarker.isPrefixOf (s ++ t) = cardMarker.isPrefixOf s := by
  unfold settledAt at h
  by_cases h1 : cardMarker.isPrefixOf s = true
  · rw [h1]
    rw [List.isPrefixOf_iff_prefix] at h1 ⊢
    exact h1.trans (List.prefix_append s t)
  · have h2 : ¬ s <+: cardMarker := by
      intro h6
      have h7 : s.isPrefixOf cardMarker = true := List.isPrefixOf_iff_prefix.2 h6
      rw [h7] at h
      simp [h1] at h
    have h3 : ¬ cardMarker <+: s := fun h6 => h1 (List.isPrefixOf_iff_prefix.2 h6)
    have h4 : ¬ cardMarker <+: s ++ t := by
      intro h5
      rcases List.prefix_or_prefix_of_prefix h5 (List.prefix_append s t) with h6 | h6
      · exact h3 h6
      · exact h2 h6
    have h5 : cardMarker.isPrefixOf (s ++ t) = false :=
      Bool.eq_false_iff.2 (fun h6 => h4 (List.isPrefixOf_iff_prefix.1 h6))
    rw [h5]
    exact (Bool.eq_false_iff.2 h1).symm

theorem countCards_settled (s t : List Char) (h : settled s = true) :
    countCards (s ++ t) = countCards s + countCards t := by
  induction s with
  | nil => simp [countCards]
  | cons c s ih =>
    simp only [settled, Bool.and_eq_true] at h
    have h1 := settledAt_append (c :: s) t h.1
    rw [List.cons_append] at h1
    rw [List.cons_append, countCards_cons, countCards_cons, h1, ih h.2]
    omega

theorem digitChar_ne_lt (d : Nat) (hd : d < 10) : Nat.digitChar d ≠ '<' := by
  interval_cases d <;> decide

theorem toDigitsCore_free (fuel n : Nat) (ds : List Char) (hds : '<' ∉ ds) :
    '<' ∉ Nat.toDigitsCore 10 fuel n ds := by
  induction fuel generalizing n ds with
  | zero => simpa [Nat.toDigitsCore] using hds
  | succ fuel ih =>
    have hd : Nat.digitChar (n % 10) ≠ '<' := digitChar_ne_lt _ (Nat.mod_lt _ (by decide))
    have hcons : '<' ∉ Nat.digitChar (n % 10) :: ds := by
      intro h
      rcases List.mem_cons.1 h with h | h
      · exact hd h.symm
      · exact hds h
    unfold Nat.toDigitsCore
    by_cases h0 : n / 10 = 0
    · simpa [h0] using hcons
    · simp only [h0, if_false]
      exact ih (n / 10) _ hcons

theorem natText_free (n : Nat) : '<' ∉ (toString n).data :=
  toDigitsCore_free (n + 1) n [] (List.not_mem_nil _)

theorem intText_free (i : Int) : '<' ∉ (toString i).data := by
  cases i with
  | ofNat n => exact natText_free n
  | negSucc n =>
    show '<' ∉ ("-" ++ toString (n + 1)).data
    rw [String.data_append]
    intro h
    rcases List.mem_append.1 h with h | h
    · exact absurd h (by decide)
    · exact natText_free (n + 1) h

set_option maxRecDepth 100000 in
theorem countCards_roomCard (searchData : SearchForm) (startHour endHour : String) (room : Room)
    (t : List Char) (h1 : plainText room.room_num) (h2 : plainText room.building_name)
    (h3 : plainText searchData.slot_date) (h4 : plainText startHour)
    (h5 : plainText endHour) :
    countCards ((roomCard searchData startHour endHour room).data ++ t) = 1 + countCards t := by
  have h1 : '<' ∉ room.room_num.data := h1
  have h2 : '<' ∉ room.building_name.data := h2
  have h3 : '<' ∉ searchData.slot_date.data := h3
  have h4 : '<' ∉ startHour.data := h4
  have h5 : '<' ∉ endHour.data := h5
  have i1 := intText_free room.room_id
  have i2 := intText_free room.floor
  have i3 := intText_free room.capacity
  simp only [roomCard, onclickText, cardArgs, String.data_append, List.append_assoc]
  rw [countCards_settled, countCards_free _ _ h1, countCards_settled, countCards_free _ _ h2,
    countCards_settled, countCards_free _ _ i2, countCards_settled, countCards_free _ _ i3,
    countCards_settled,
    countCards_settled, countCards_free _ _ i1, countCards_settled, countCards_free _ _ h1,
    countCards_settled, countCards_free _ _ h2, countCards_settled, countCards_free _ _ i2,
    countCards_settled, countCards_free _ _ i3, countCards_settled, countCards_free _ _ h3,
    countCards_settled, countCards_free _ _ h4, countCards_settled, countCards_free _ _ h5,
    countCards_settled, countCards_settled]
  · simp only [← Nat.add_assoc]
    congr 1
  all_goals decide

theorem countCards_cards (searchData : SearchForm) (startHour endHour : String)
    (rooms : List Room) (t : List Char)
    (hrooms : ∀ room ∈ rooms, plainText room.room_num ∧ plainText room.building_name)
    (h3 : plainText searchData.slot_date) (h4 : plainText startHour) (h5 : plainText endHour) :
    countCards ((rooms.map (fun room =>
        (roomCard searchData startHour endHour room).data)).flatten ++ t) =
      rooms.length + countCards t := by
  induction rooms with
  | nil => simp
  | cons r rs ih =>
    have hr := hrooms r (List.mem_cons_self _ _)
    have hrs : ∀ room ∈ rs, plainText room.room_num ∧ plainText room.building_name :=
      fun room hm => hrooms room (List.mem_cons_of_mem _ hm)
    simp only [List.map_cons, List.flatten_cons, List.append_assoc, List.length_cons]
    rw [countCards_roomCard searchData startHour endHour r _ hr.1 hr.2 h3 h4 h5, ih hrs]
    omega

set_option maxRecDepth 100000 in
theorem countCards_noRoomsPanel : countCards noRoomsPanel.toList = 0 := by
  decide

theorem countCards_results (rooms : List Room) (searchData : SearchForm) (p : Page)
    (hrooms : ∀ room ∈ rooms, plainText room.room_num ∧ plainText room.building_name)
    (h3 : plainText searchData.slot_date) (h4 : plainText searchData.start_hour)
    (h5 : plainText searchData.end_hour) :
    countCards (displaySearchResults rooms searchData p).searchResults.toList = rooms.length := by
  by_cases h : rooms = []
  · subst h
    simp only [displaySearchResults, List.length_nil, if_true]
    exact countCards_noRoomsPanel
  · have hlen : ¬ rooms.length = 0 := fun h0 => h (List.length_eq_zero.1 h0)
    simp only [displaySearchResults, hlen, if_false, orElse_empty, String.toList,
      String.data_append, foldl_append_data, List.append_assoc]
    rw [countCards_settled _ _ (by decide),
      countCards_cards searchData _ _ rooms _ hrooms h3 h4 h5]
    have h0 : countCards ("<div class=\"row\">" : String).data = 0 := by decide
    have h1 : countCards ("</div>" : String).data = 0 := by decide
    rw [h0, h1]
    omega

theorem rowOpening_data :
    ("<div class=\"row\">" : String).data = '<' :: ("div class=\"row\">" : String).data :=
  rfl

theorem noRoomsPanel_data : noRoomsPanel.data = '\n' :: noRoomsPanel.data.tail :=
  rfl

/-- C6. `displaySearchResults` shows the "No Available Rooms" panel exactly when
the list of rooms is empty, and the panel holds no card; otherwise the results
are the row opening, the cards of the rooms one after the other in the order of
the list, and the row closing, each card carrying the call of its own room.
When the interpolated texts hold no `<`, the opening tag of a card stands in the
results exactly once per room. -/
theorem displaySearchResults_cards (rooms : List Room) (searchData : SearchForm) (p : Page) :
    ((displaySearchResults rooms searchData p).searchResults = noRoomsPanel ↔ rooms = []) ∧
      ((displaySearchResults rooms searchData p).searchResults =
        if rooms = [] then noRoomsPanel
        else "<div class=\"row\">"
          ++ String.join (rooms.map
            (roomCard searchData searchData.start_hour searchData.end_hour))
          ++ "</div>") ∧
      (displaySearchResults rooms searchData p).cards.length = rooms.length ∧
      (∀ i : Nat, (displaySearchResults rooms searchData p).cards.get? i =
        (rooms.get? i).map (cardArgs searchData searchData.start_hour searchData.end_hour)) ∧
      countCards noRoomsPanel.toList = 0 ∧
      ((∀ room ∈ rooms, plainText room.room_num ∧ plainText room.building_name) →
        plainText searchData.slot_date → plainText searchData.start_hour →
        plainText searchData.end_hour →
        countCards (displaySearchResults rooms searchData p).searchResults.toList
          = rooms.length) := by
  refine ⟨?_, ?_, ?_, ?_, countCards_noRoomsPanel, countCards_results rooms searchData p⟩
  · by_cases h : rooms = []
    · subst h
      simp [displaySearchResults]
    · rw [displaySearchResults_nonempty rooms searchData p h]
      simp only [h, iff_false]
      intro hc
      have h1 := congrArg String.data hc
      rw [String.data_append, String.data_append, rowOpening_data, noRoomsPanel_data] at h1
      have h2 := congrArg List.head? h1
      simp only [List.cons_append, List.head?_cons, Option.some.injEq] at h2
      exact absurd h2 (by decide)
  · by_cases h : rooms = []
    · subst h
      simp [displaySearchResults]
    · rw [displaySearchResults_nonempty rooms searchData p h]
      simp only [h, if_false]
  · by_cases h : rooms = []
    · subst h
      simp [displaySearchResults]
    · rw [displaySearchResults_nonempty rooms searchData p h]
      simp only [List.length_map]
  · intro i
    by_cases h : rooms = []
    · subst h
      simp [displaySearchResults]
    · rw [displaySearchResults_nonempty rooms searchData p h]
      simp only [List.getElem?_map, List.get?_eq_getElem?]

/-- C6, for a response of two rooms: two cards, and not the panel. -/
theorem displaySearchResults_cards_witness :
    countCards (displaySearchResults
        [⟨7, "101", "Main", 1, 4⟩, ⟨8, "202", "Annex", 2, 12⟩]
        ⟨"", "", "2024-01-01", "9", "10"⟩
        (initialPage ⟨"", "", "2024-01-01", "9", "10"⟩)).searchResults.toList = 2 :=
  (displaySearchResults_cards [⟨7, "101", "Main", 1, 4⟩, ⟨8, "202", "Annex", 2, 12⟩]
    ⟨"", "", "2024-01-01", "9", "10"⟩ (initialPage ⟨"", "", "2024-01-01", "9", "10"⟩)).2.2.2.2.2
    (by decide) (by decide) (by decide) (by decide)

/-! ## Pressing the button of a card -/

/-! ### Reading back the numbers and texts of a handler -/

theorem digitChar_spec (d : Nat) (hd : d < 10) :
    isDigit (Nat.digitChar d) = true ∧ (Nat.digitChar d).toNat - 48 = d ∧
      (d ≠ 0 → Nat.digitChar d ≠ '0') := by
  interval_cases d <;> decide

theorem digitsValue_append (a : Nat) (l : List Char) (c : Char) :
    digitsValue a (l ++ [c]) = digitsValue a l * 10 + (c.toNat - 48) := by
  simp [digitsValue, List.foldl_append]

theorem toDigitsCore_spec (fuel n : Nat) (ds : List Char) (h : n < fuel) :
    ∃ l, Nat.toDigitsCore 10 fuel n ds = l ++ ds ∧ l ≠ [] ∧
      (∀ c ∈ l, isDigit c = true) ∧ digitsValue 0 l = n ∧
      (n ≠ 0 → l.head? ≠ some '0') := by
  induction fuel generalizing n ds with
  | zero => omega
  | succ fuel ih =>
    have hd := digitChar_spec (n % 10) (Nat.mod_lt _ (by decide))
    unfold Nat.toDigitsCore
    by_cases h0 : n / 10 = 0
    · have hn : n % 10 = n := by omega
      refine ⟨[Nat.digitChar (n % 10)], by simp [h0], by simp, ?_, ?_, ?_⟩
      · intro c hc
        rw [List.mem_singleton.1 hc]
        exact hd.1
      · have hv : digitsValue 0 [Nat.digitChar (n % 10)] = (Nat.digitChar (n % 10)).toNat - 48 := by
          simp [digitsValue]
        rw [hv, hd.2.1, hn]
      · intro hne
        have : n % 10 ≠ 0 := by omega
        simpa using hd.2.2 this
    · have hlt : n / 10 < fuel := by omega
      obtain ⟨l, hl, hne, hdig, hval, hhead⟩ := ih (n / 10) (Nat.digitChar (n % 10) :: ds) hlt
      refine ⟨l ++ [Nat.digitChar (n % 10)], ?_, by simp, ?_, ?_, ?_⟩
      · simp only [h0, if_false]
        rw [hl]
        simp
      · intro c hc
        rcases List.mem_append.1 hc with hc | hc
        · exact hdig c hc
        · rw [List.mem_singleton.1 hc]
          exact hd.1
      · rw [digitsValue_append, hval, hd.2.1]
        omega
      · intro _
        cases l with
        | nil => exact absurd rfl hne
        | cons c t => simpa using hhead h0

theorem natText_spec (n : Nat) :
    ∃ c t, (toString n).data = c :: t ∧ isDigit c = true ∧ (∀ x ∈ t, isDigit x = true) ∧
      digitsValue (c.toNat - 48) t = n ∧ (n ≠ 0 → c ≠ '0') ∧ (n = 0 → t = []) := by
  obtain ⟨l, hl, hne, hdig, hval, hhead⟩ := toDigitsCore_spec (n + 1) n [] (Nat.lt_succ_self n)
  have hdata : (toString n).data = l := by
    show Nat.toDigitsCore 10 (n + 1) n [] = l
    rw [hl, List.append_nil]
  cases l with
  | nil => exact absurd rfl hne
  | cons c t =>
    refine ⟨c, t, hdata, hdig c (List.mem_cons_self _ _),
      fun x hx => hdig x (List.mem_cons_of_mem _ hx), ?_, ?_, ?_⟩
    · simpa [digitsValue] using hval
    · intro h0 hc
      exact hhead h0 (by simp [hc])
    · intro h0
      subst h0
      have : (toString 0).data = ['0'] := rfl
      rw [this] at hdata
      exact (List.cons.inj hdata.symm).2

theorem foldl_stepJs_digits (args : List JsValue) (negative : Bool) (a : Nat) (t rest : List Char)
    (ht : ∀ x ∈ t, isDigit x = true) :
    (t ++ rest).foldl stepJs (JsMode.number args negative a) =
      rest.foldl stepJs (JsMode.number args negative (digitsValue a t)) := by
  induction t generalizing a with
  | nil => rfl
  | cons x t ih =>
    have hx := ht x (List.mem_cons_self _ _)
    simp only [List.cons_append, List.foldl_cons, stepJs, hx, if_true]
    rw [ih _ (fun y hy => ht y (List.mem_cons_of_mem _ hy))]
    rfl

theorem foldl_stepJs_nat (args : List JsValue) (negative : Bool) (n : Nat) (rest : List Char)
    (hn : negative = true → n ≠ 0) :
    ((toString n).data ++ ',' :: rest).foldl stepJs
        (if negative then JsMode.minus args else JsMode.start args) =
      rest.foldl stepJs (JsMode.start (args ++
        [JsValue.num (some (if negative then - (n : Int) else (n : Int)))])) := by
  obtain ⟨c, t, hdata, hc, ht, hval, hnz, hz⟩ := natText_spec n
  rw [hdata]
  by_cases h0 : n = 0
  · have hneg : negative = false := by
      cases negative with
      | false => rfl
      | true => exact absurd h0 (hn rfl)
    have hc0 : c = '0' := by
      subst h0
      have : (toString 0).data = ['0'] := rfl
      rw [this] at hdata
      exact (List.cons.inj hdata).1.symm
    subst h0
    rw [hz rfl, hneg, hc0]
    simp [stepJs, afterLiteral, isDigit]
  · have hc0 : c ≠ '0' := hnz h0
    have hstart : stepJs (if negative = true then JsMode.minus args else JsMode.start args) c =
        JsMode.number args negative (c.toNat - 48) := by
      have hsp : c ≠ ' ' := by
        intro h; rw [h] at hc; exact absurd hc (by decide)
      have hpar : c ≠ ')' := by
        intro h; rw [h] at hc; exact absurd hc (by decide)
      have hq : ¬ c.toNat = 39 := by
        intro h; simp [isDigit, h] at hc
      have hm : c ≠ '-' := by
        intro h; rw [h] at hc; exact absurd hc (by decide)
      cases negative <;> simp [stepJs, hc0, hc, hsp, hpar, hq, hm]
    rw [List.cons_append, List.foldl_cons, hstart, foldl_stepJs_digits _ _ _ _ _ ht, hval]
    simp [stepJs, afterLiteral, isDigit]

theorem foldl_stepJs_int (args : List JsValue) (i : Int) (rest : List Char) :
    ((toString i).data ++ ',' :: rest).foldl stepJs (JsMode.start args) =
      rest.foldl stepJs (JsMode.start (args ++ [JsValue.num (some i)])) := by
  cases i with
  | ofNat n =>
    have h := foldl_stepJs_nat args false n rest (by simp)
    simpa using h
  | negSucc n =>
    have h := foldl_stepJs_nat args true (n + 1) rest (by simp)
    have hdata : (toString (Int.negSucc n)).data = '-' :: (toString (n + 1)).data := rfl
    rw [hdata, List.cons_append, List.foldl_cons]
    have hminus : stepJs (JsMode.start args) '-' = JsMode.minus args := by
      simp [stepJs]
    rw [hminus]
    simp only [if_true] at h
    rw [h]
    rfl

theorem foldl_stepJs_text (args : List JsValue) (acc t rest : List Char)
    (ht : ∀ c ∈ t, literalChar c = true) :
    (t ++ rest).foldl stepJs (JsMode.string args acc) =
      rest.foldl stepJs (JsMode.string args (acc ++ t)) := by
  induction t generalizing acc with
  | nil => simp
  | cons c t ih =>
    have hc := ht c (List.mem_cons_self _ _)
    simp only [literalChar, Bool.not_eq_true', Bool.or_eq_false_iff, decide_eq_false_iff_not] at hc
    obtain ⟨⟨⟨⟨⟨h1, h2⟩, h3⟩, h4⟩, h5⟩, h6⟩ := hc
    have hstep : stepJs (JsMode.string args acc) c = JsMode.string args (acc ++ [c]) := by
      simp [stepJs, h1, h2, h3, h4, h5, h6]
    rw [List.cons_append, List.foldl_cons, hstep, ih _ (fun y hy => ht y (List.mem_cons_of_mem _ hy))]
    simp

theorem afterLead_append (lead rest : List Char) : afterLead lead (lead ++ rest) = some rest := by
  induction lead with
  | nil => cases rest <;> rfl
  | cons a as ih => simp [afterLead, ih]

theorem string_mk_data (s : String) : String.mk s.data = s := rfl

theorem runHandler_onclickText (a : ModalArgs)
    (h1 : literalSafe a.roomNum = true) (h2 : literalSafe a.buildingName = true)
    (h3 : literalSafe a.slotDate = true) (h4 : literalSafe a.startHour = true)
    (h5 : literalSafe a.endHour = true) :
    runHandler (onclickText a).toList =
      HandlerResult.call
        [JsValue.num (some a.roomId), JsValue.str a.roomNum, JsValue.str a.buildingName,
         JsValue.num (some a.floor), JsValue.num (some a.capacity), JsValue.str a.slotDate,
         JsValue.str a.startHour, JsValue.str a.endHour] := by
  have k1 : ∀ c ∈ a.roomNum.data, literalChar c = true := by
    simpa [literalSafe] using h1
  have k2 : ∀ c ∈ a.buildingName.data, literalChar c = true := by
    simpa [literalSafe] using h2
  have k3 : ∀ c ∈ a.slotDate.data, literalChar c = true := by
    simpa [literalSafe] using h3
  have k4 : ∀ c ∈ a.startHour.data, literalChar c = true := by
    simpa [literalSafe] using h4
  have k5 : ∀ c ∈ a.endHour.data, literalChar c = true := by
    simpa [literalSafe] using h5
  have hsplit : (onclickText a).toList = "showReservationModal(".toList ++
      ((toString a.roomId).data ++ ',' :: ' ' :: '\x27' :: (a.roomNum.data ++
        '\x27' :: ',' :: ' ' :: '\x27' :: (a.buildingName.data ++
        '\x27' :: ',' :: ' ' :: ((toString a.floor).data ++
        ',' :: ' ' :: ((toString a.capacity).data ++
        ',' :: ' ' :: '\x27' :: (a.slotDate.data ++
        '\x27' :: ',' :: ' ' :: '\x27' :: (a.startHour.data ++
        '\x27' :: ',' :: ' ' :: '\x27' :: (a.endHour.data ++ ['\x27', ')'])))))))) := by
    simp [onclickText, String.toList, String.data_append]
  unfold runHandler
  rw [hsplit, afterLead_append]
  simp only []
  rw [foldl_stepJs_int]
  simp only [List.foldl_cons]
  have s1 : ∀ args, stepJs (JsMode.start args) ' ' = JsMode.start args := by
    intro args; simp [stepJs]
  have s2 : ∀ args, stepJs (JsMode.start args) '\x27' = JsMode.string args [] := by
    intro args; simp [stepJs]
  have s3 : ∀ args text, stepJs (JsMode.string args text) '\x27' =
      JsMode.afterArg (args ++ [JsValue.str (String.mk text)]) true := by
    intro args text; simp [stepJs]
  have s4 : ∀ args b, stepJs (JsMode.afterArg args b) ',' = JsMode.start args := by
    intro args b; simp [stepJs, afterLiteral]
  have s5 : ∀ args b, stepJs (JsMode.afterArg args b) ')' = JsMode.closed args := by
    intro args b; simp [stepJs, afterLiteral]
  rw [s1, s2, foldl_stepJs_text _ _ _ _ k1]
  simp only [List.foldl_cons]
  rw [s3, s4, s1, s2, foldl_stepJs_text _ _ _ _ k2]
  simp only [List.foldl_cons]
  rw [s3, s4, s1, foldl_stepJs_int]
  simp only [List.foldl_cons]
  rw [s1, foldl_stepJs_int]
  simp only [List.foldl_cons]
  rw [s1, s2, foldl_stepJs_text _ _ _ _ k3]
  simp only [List.foldl_cons]
  rw [s3, s4, s1, s2, foldl_stepJs_text _ _ _ _ k4]
  simp only [List.foldl_cons]
  rw [s3, s4, s1, s2, foldl_stepJs_text _ _ _ _ k5]
  simp only [List.foldl_cons, List.foldl_nil]
  rw [s3, s5]
  simp [finishJs, string_mk_data]

/-! ### Reading back the markup of the results -/

theorem feedHtml_none (l : List Char) : feedHtml none l = none := by
  induction l with
  | nil => rfl
  | cons c l ih => simpa [feedHtml] using ih

theorem feedHtml_cons (s : HtmlScan) (c : Char) (l : List Char) :
    feedHtml (some s) (c :: l) = feedHtml (stepHtml s c) l := rfl

theorem feedHtml_append (s : Option HtmlScan) (a b : List Char) :
    feedHtml s (a ++ b) = feedHtml (feedHtml s a) b := by
  simp [feedHtml, List.foldl_append]

/-- The buttons read before a place do not change how the rest is read. -/
theorem stepHtml_frame (m : HtmlMode) (bs : List (Option (List Char))) (c : Char) :
    stepHtml { mode := m, buttons := bs } c =
      (stepHtml { mode := m, buttons := [] } c).map
        (fun s => { mode := s.mode, buttons := bs ++ s.buttons }) := by
  unfold stepHtml
  by_cases h0 : (c.toNat = 0 || c.toNat = 13) = true
  · simp [h0]
  · simp only [h0]
    cases m <;> simp only [] <;> (repeat' split) <;> simp [closeTag] <;> split_ifs <;> simp

theorem feedHtml_frame (m : HtmlMode) (bs : List (Option (List Char))) (l : List Char) :
    feedHtml (some { mode := m, buttons := bs }) l =
      (feedHtml (some { mode := m, buttons := [] }) l).map
        (fun s => { mode := s.mode, buttons := bs ++ s.buttons }) := by
  induction l generalizing m bs with
  | nil => simp [feedHtml]
  | cons c l ih =>
    rw [feedHtml_cons, feedHtml_cons, stepHtml_frame m bs c]
    cases h : stepHtml { mode := m, buttons := [] } c with
    | none => simp [feedHtml_none]
    | some s =>
      obtain ⟨m1, b1⟩ := s
      simp only [Option.map_some']
      rw [ih m1 (bs ++ b1), ih m1 b1]
      cases feedHtml (some { mode := m1, buttons := [] }) l with
      | none => rfl
      | some s2 => simp [List.append_assoc]

theorem feedHtml_chunk (m : HtmlMode) (bs : List (Option (List Char))) (l rest : List Char)
    (s : HtmlScan) (h : feedHtml (some { mode := m, buttons := [] }) l = some s) :
    feedHtml (some { mode := m, buttons := bs }) (l ++ rest) =
      feedHtml (some { mode := s.mode, buttons := bs ++ s.buttons }) rest := by
  rw [feedHtml_append, feedHtml_frame, h]
  rfl

theorem markupChar_spec (c : Char) (h : markupChar c = true) :
    c ≠ '<' ∧ c ≠ '&' ∧ c ≠ '"' ∧ ¬ c.toNat = 0 ∧ ¬ c.toNat = 13 := by
  simp only [markupChar, Bool.not_eq_true', Bool.or_eq_false_iff, decide_eq_false_iff_not] at h
  obtain ⟨⟨⟨⟨h1, h2⟩, h3⟩, h4⟩, h5⟩ := h
  exact ⟨h1, h2, h3, h4, h5⟩

theorem feedHtml_text (bs : List (Option (List Char))) (t rest : List Char)
    (ht : ∀ c ∈ t, markupChar c = true) :
    feedHtml (some { mode := HtmlMode.data, buttons := bs }) (t ++ rest) =
      feedHtml (some { mode := HtmlMode.data, buttons := bs }) rest := by
  induction t with
  | nil => rfl
  | cons c t ih =>
    obtain ⟨h1, h2, _, h4, h5⟩ := markupChar_spec c (ht c (List.mem_cons_self _ _))
    have hstep : stepHtml { mode := HtmlMode.data, buttons := bs } c =
        some { mode := HtmlMode.data, buttons := bs } := by
      simp [stepHtml, h1, h2, h4, h5]
    rw [List.cons_append, feedHtml_cons, hstep, ih (fun y hy => ht y (List.mem_cons_of_mem _ hy))]

theorem feedHtml_value (tag name value : List Char) (onclick : Option (List Char))
    (bs : List (Option (List Char))) (t rest : List Char)
    (ht : ∀ c ∈ t, markupChar c = true) :
    feedHtml (some { mode := HtmlMode.attrValue tag onclick name value, buttons := bs })
        (t ++ rest) =
      feedHtml (some { mode := HtmlMode.attrValue tag onclick name (value ++ t), buttons := bs })
        rest := by
  induction t generalizing value with
  | nil => simp
  | cons c t ih =>
    obtain ⟨_, h2, h3, h4, h5⟩ := markupChar_spec c (ht c (List.mem_cons_self _ _))
    have hstep : stepHtml { mode := HtmlMode.attrValue tag onclick name value, buttons := bs } c =
        some { mode := HtmlMode.attrValue tag onclick name (value ++ [c]), buttons := bs } := by
      simp [stepHtml, h2, h3, h4, h5]
    rw [List.cons_append, feedHtml_cons, hstep,
      ih _ (fun y hy => ht y (List.mem_cons_of_mem _ hy))]
    simp

theorem markupChar_digit (c : Char) (h : isDigit c = true) : markupChar c = true := by
  simp only [isDigit, Bool.and_eq_true, decide_eq_true_eq] at h
  have h1 : c ≠ '<' := by
    intro hc; rw [hc] at h; exact absurd h (by decide)
  have h2 : c ≠ '&' := by
    intro hc; rw [hc] at h; exact absurd h (by decide)
  have h3 : c ≠ '"' := by
    intro hc; rw [hc] at h; exact absurd h (by decide)
  have h4 : ¬ c.toNat = 0 := by omega
  have h5 : ¬ c.toNat = 13 := by omega
  simp [markupChar, h1, h2, h3, h4, h5]

theorem natText_markup (n : Nat) : ∀ c ∈ (toString n).data, markupChar c = true := by
  obtain ⟨c, t, hdata, hc, ht, _, _, _⟩ := natText_spec n
  rw [hdata]
  intro x hx
  rcases List.mem_cons.1 hx with hx | hx
  · rw [hx]
    exact markupChar_digit c hc
  · exact markupChar_digit x (ht x hx)

theorem intText_markup (i : Int) : ∀ c ∈ (toString i).data, markupChar c = true := by
  cases i with
  | ofNat n => exact natText_markup n
  | negSucc n =>
    have hdata : (toString (Int.negSucc n)).data = '-' :: (toString (n + 1)).data := rfl
    rw [hdata]
    intro x hx
    rcases List.mem_cons.1 hx with hx | hx
    · rw [hx]
      decide
    · exact natText_markup (n + 1) x hx

theorem onclickText_split (a : ModalArgs) :
    (onclickText a).toList = "showReservationModal(".toList ++
      ((toString a.roomId).data ++ ',' :: ' ' :: '\x27' :: (a.roomNum.data ++
        '\x27' :: ',' :: ' ' :: '\x27' :: (a.buildingName.data ++
        '\x27' :: ',' :: ' ' :: ((toString a.floor).data ++
        ',' :: ' ' :: ((toString a.capacity).data ++
        ',' :: ' ' :: '\x27' :: (a.slotDate.data ++
        '\x27' :: ',' :: ' ' :: '\x27' :: (a.startHour.data ++
        '\x27' :: ',' :: ' ' :: '\x27' :: (a.endHour.data ++ ['\x27', ')'])))))))) := by
  simp [onclickText, String.toList, String.data_append]

theorem markupSafe_spec (s : String) (h : markupSafe s = true) :
    ∀ c ∈ s.data, markupChar c = true := by
  simpa [markupSafe] using h

theorem onclickText_markup (a : ModalArgs)
    (h1 : markupSafe a.roomNum = true) (h2 : markupSafe a.buildingName = true)
    (h3 : markupSafe a.slotDate = true) (h4 : markupSafe a.startHour = true)
    (h5 : markupSafe a.endHour = true) :
    ∀ c ∈ (onclickText a).toList, markupChar c = true := by
  have k1 := markupSafe_spec _ h1
  have k2 := markupSafe_spec _ h2
  have k3 := markupSafe_spec _ h3
  have k4 := markupSafe_spec _ h4
  have k5 := markupSafe_spec _ h5
  have i1 := intText_markup a.roomId
  have i2 := intText_markup a.floor
  have i3 := intText_markup a.capacity
  have hlead : ∀ c ∈ "showReservationModal(".toList, markupChar c = true := by decide
  rw [onclickText_split]
  intro c hc
  simp only [List.mem_append, List.mem_cons, List.mem_singleton, List.not_mem_nil, or_false] at hc
  rcases hc with hc | hc | hc | hc | hc | hc | hc | hc | hc | hc | hc | hc | hc | hc | hc | hc |
    hc | hc | hc | hc | hc | hc | hc | hc | hc | hc | hc | hc | hc | hc | hc | hc | hc | hc | hc
  all_goals first
    | exact hlead c hc
    | exact i1 c hc
    | exact i2 c hc
    | exact i3 c hc
    | exact k1 c hc
    | exact k2 c hc
    | exact k3 c hc
    | exact k4 c hc
    | exact k5 c hc
    | (rw [hc]; decide)
    | decide

theorem feedHtml_valueEnd (value : List Char) (bs : List (Option (List Char)))
    (l rest : List Char) :
    feedHtml (some ⟨HtmlMode.attrValue "button".toList none "onclick".toList value, bs⟩)
        (('"' :: '>' :: l) ++ rest) =
      feedHtml (some { mode := HtmlMode.data, buttons := bs ++ [some value] }) (l ++ rest) := by
  simp [feedHtml_cons, stepHtml, closeTag, isTagSpace]

theorem feedHtml_quiet (m m' : HtmlMode) (bs : List (Option (List Char))) (l rest : List Char)
    (h : feedHtml (some { mode := m, buttons := [] }) l = some { mode := m', buttons := [] }) :
    feedHtml (some { mode := m, buttons := bs }) (l ++ rest) =
      feedHtml (some { mode := m', buttons := bs }) rest := by
  rw [feedHtml_chunk m bs l rest _ h]
  simp

set_option maxRecDepth 1000000 in
theorem feedHtml_roomCard (searchData : SearchForm) (startHour endHour : String) (room : Room)
    (bs : List (Option (List Char))) (rest : List Char)
    (h1 : markupSafe room.room_num = true) (h2 : markupSafe room.building_name = true)
    (h3 : markupSafe searchData.slot_date = true) (h4 : markupSafe startHour = true)
    (h5 : markupSafe endHour = true) :
    feedHtml (some { mode := HtmlMode.data, buttons := bs })
        ((roomCard searchData startHour endHour room).data ++ rest) =
      feedHtml (some ⟨HtmlMode.data,
          bs ++ [some (onclickText (cardArgs searchData startHour endHour room)).toList]⟩)
        rest := by
  have ko : ∀ c ∈ (onclickText (cardArgs searchData startHour endHour room)).data,
      markupChar c = true :=
    onclickText_markup (cardArgs searchData startHour endHour room) h1 h2 h3 h4 h5
  have k1 := markupSafe_spec _ h1
  have k2 := markupSafe_spec _ h2
  have i2 := intText_markup room.floor
  have i3 := intText_markup room.capacity
  simp only [roomCard, String.data_append, List.append_assoc]
  rw [feedHtml_quiet HtmlMode.data HtmlMode.data, feedHtml_text _ _ _ k1,
    feedHtml_quiet HtmlMode.data HtmlMode.data, feedHtml_text _ _ _ k2,
    feedHtml_quiet HtmlMode.data HtmlMode.data, feedHtml_text _ _ _ i2,
    feedHtml_quiet HtmlMode.data HtmlMode.data, feedHtml_text _ _ _ i3,
    feedHtml_quiet HtmlMode.data
      (HtmlMode.attrValue "button".toList none "onclick".toList []),
    feedHtml_value _ _ _ _ _ _ _ ko, List.nil_append, feedHtml_valueEnd,
    feedHtml_quiet HtmlMode.data HtmlMode.data]
  · rfl
  all_goals decide

theorem feedHtml_cards (searchData : SearchForm) (startHour endHour : String)
    (rooms : List Room) (bs : List (Option (List Char))) (rest : List Char)
    (hrooms : ∀ room ∈ rooms,
      markupSafe room.room_num = true ∧ markupSafe room.building_name = true)
    (h3 : markupSafe searchData.slot_date = true) (h4 : markupSafe startHour = true)
    (h5 : markupSafe endHour = true) :
    feedHtml (some { mode := HtmlMode.data, buttons := bs })
        ((rooms.map (fun room =>
          (roomCard searchData startHour endHour room).data)).flatten ++ rest) =
      feedHtml (some ⟨HtmlMode.data, bs ++ rooms.map (fun room =>
          some (onclickText (cardArgs searchData startHour endHour room)).toList)⟩) rest := by
  induction rooms generalizing bs with
  | nil => simp
  | cons r rs ih =>
    have hr := hrooms r (List.mem_cons_self _ _)
    have hrs : ∀ room ∈ rs,
        markupSafe room.room_num = true ∧ markupSafe room.building_name = true :=
      fun room hm => hrooms room (List.mem_cons_of_mem _ hm)
    simp only [List.map_cons, List.flatten_cons, List.append_assoc]
    rw [feedHtml_roomCard searchData startHour endHour r bs _ hr.1 hr.2 h3 h4 h5, ih _ hrs]
    simp

set_option maxRecDepth 1000000 in
theorem handlersOf_noRoomsPanel : handlersOf noRoomsPanel = some [] := by
  decide

set_option maxRecDepth 1000000 in
/-- The handlers read back from the rendered results are, button by button, the
texts the template spells for the rooms, as long as the interpolated texts are
taken by markup as they stand. -/
theorem handlersOf_results (rooms : List Room) (searchData : SearchForm) (p : Page)
    (hrooms : ∀ room ∈ rooms,
      markupSafe room.room_num = true ∧ markupSafe room.building_name = true)
    (h3 : markupSafe searchData.slot_date = true)
    (h4 : markupSafe searchData.start_hour = true)
    (h5 : markupSafe searchData.end_hour = true) :
    handlersOf (displaySearchResults rooms searchData p).searchResults =
      some (rooms.map (fun room => some
        (onclickText (cardArgs searchData searchData.start_hour searchData.end_hour room)).toList)) := by
  by_cases h : rooms = []
  · subst h
    simp only [displaySearchResults, List.length_nil, if_true, List.map_nil]
    exact handlersOf_noRoomsPanel
  · have hlen : ¬ rooms.length = 0 := fun h0 => h (List.length_eq_zero.1 h0)
    have hclose : feedHtml (some { mode := HtmlMode.data, buttons := [] }) "</div>".data =
        some { mode := HtmlMode.data, buttons := [] } := by decide
    unfold handlersOf
    simp only [displaySearchResults, hlen, if_false, orElse_empty, String.toList,
      String.data_append, foldl_append_data, List.append_assoc]
    rw [feedHtml_quiet HtmlMode.data HtmlMode.data _ _ _ (by decide),
      feedHtml_cards searchData _ _ rooms _ _ hrooms h3 h4 h5, feedHtml_frame, hclose]
    simp

set_option maxRecDepth 1000000 in
/-- C8, as stated, fails: for a room whose building name holds an apostrophe the
card is rendered with its button, but the `onclick` text of the button is no
script, the press on it changes nothing, and the modal does not receive the
room id. -/
theorem clickReserve_apostrophe :
    handlersOf (displaySearchResults [⟨7, "101", "O\x27Brien Hall", 1, 4⟩]
        ⟨"", "", "2024-01-01", "9", "10"⟩
        (initialPage ⟨"", "", "2024-01-01", "9", "10"⟩)).searchResults =
      some [some ("showReservationModal(7, \x27101\x27, \x27O\x27Brien Hall\x27, 1, 4, "
        ++ "\x272024-01-01\x27, \x279\x27, \x2710\x27)").toList] ∧
    runHandler ("showReservationModal(7, \x27101\x27, \x27O\x27Brien Hall\x27, 1, 4, "
        ++ "\x272024-01-01\x27, \x279\x27, \x2710\x27)").toList = HandlerResult.malformed ∧
    step (displaySearchResults [⟨7, "101", "O\x27Brien Hall", 1, 4⟩]
        ⟨"", "", "2024-01-01", "9", "10"⟩ (initialPage ⟨"", "", "2024-01-01", "9", "10"⟩))
        (Event.clickReserve 0) =
      displaySearchResults [⟨7, "101", "O\x27Brien Hall", 1, 4⟩]
        ⟨"", "", "2024-01-01", "9", "10"⟩ (initialPage ⟨"", "", "2024-01-01", "9", "10"⟩) ∧
    (step (displaySearchResults [⟨7, "101", "O\x27Brien Hall", 1, 4⟩]
        ⟨"", "", "2024-01-01", "9", "10"⟩ (initialPage ⟨"", "", "2024-01-01", "9", "10"⟩))
        (Event.clickReserve 0)).modal.modal_room_id ≠ "7" := by
  decide

/-- C8, amended. After a search response is rendered in which the names and
numbers of the rooms and the searched date and hours are taken by markup as they
stand, pressing the button of the card of a room whose texts, like the search
data, hold no apostrophe, backslash or line break, and whose numbers are
integers of at most 2^53 in magnitude, fills the modal from that card alone: the
room id is the room's, date and hours are the searched ones, and the name is
cleared, so that the reservation form holds the request for that room. -/
theorem clickReserve_populates (rooms : List Room) (searchData : SearchForm) (p : Page)
    (i : Nat) (room : Room) (hi : rooms.get? i = some room)
    (hrooms : ∀ r ∈ rooms, markupSafe r.room_num = true ∧ markupSafe r.building_name = true)
    (hdate : markupSafe searchData.slot_date = true ∧ literalSafe searchData.slot_date = true)
    (hstart : markupSafe searchData.start_hour = true ∧
      literalSafe searchData.start_hour = true)
    (hend : markupSafe searchData.end_hour = true ∧ literalSafe searchData.end_hour = true)
    (hroom : literalSafe room.room_num = true ∧ literalSafe room.building_name = true)
    (_hnum : safeInteger room.room_id = true ∧ safeInteger room.floor = true ∧
      safeInteger room.capacity = true) :
    (step (displaySearchResults rooms searchData p) (Event.clickReserve i)).modal.modal_room_id
        = toString room.room_id ∧
      (step (displaySearchResults rooms searchData p) (Event.clickReserve i)).modal.modal_slot_date
        = searchData.slot_date ∧
      (step (displaySearchResults rooms searchData p) (Event.clickReserve i)).modal.modal_start_hour
        = searchData.start_hour ∧
      (step (displaySearchResults rooms searchData p) (Event.clickReserve i)).modal.modal_end_hour
        = searchData.end_hour ∧
      (step (displaySearchResults rooms searchData p) (Event.clickReserve i)).modal.reserved_by
        = "" ∧
      reservationFormData
          (step (displaySearchResults rooms searchData p) (Event.clickReserve i)).modal =
        { room_id := toString room.room_id, slot_date := searchData.slot_date,
          start_hour := searchData.start_hour, end_hour := searchData.end_hour,
          reserved_by := "" } ∧
      (step (displaySearchResults rooms searchData p) (Event.clickReserve i)).unmodelled
        = p.unmodelled := by
  have hh := handlersOf_results rooms searchData p hrooms hdate.1 hstart.1 hend.1
  have hrun := runHandler_onclickText
    (cardArgs searchData searchData.start_hour searchData.end_hour room)
    hroom.1 hroom.2 hdate.2 hstart.2 hend.2
  have hget : (rooms.map (fun room => some
      (onclickText (cardArgs searchData searchData.start_hour searchData.end_hour room)).toList)).get? i
      = some (some
        (onclickText (cardArgs searchData searchData.start_hour searchData.end_hour room)).toList) := by
    simp only [List.get?_eq_getElem?, List.getElem?_map]
    rw [← List.get?_eq_getElem?, hi]
    rfl
  have hun : (displaySearchResults rooms searchData p).unmodelled = p.unmodelled := by
    unfold displaySearchResults
    split <;> rfl
  simp only [step, hh, hget, hrun]
  simp [callModal, showReservationModal, Page.emit, cardArgs, reservationFormData, jsString,
    numToString, hun]

/-- C8 amended, for the second room of a response of two. -/
theorem clickReserve_populates_witness :
    (step (displaySearchResults
        [⟨7, "101", "Main", 1, 4⟩, ⟨8, "202", "Annex", 2, 12⟩]
        ⟨"", "", "2024-01-01", "9", "10"⟩
        (initialPage ⟨"", "", "2024-01-01", "9", "10"⟩)) (Event.clickReserve 1)).modal.modal_room_id
      = "8" :=
  (clickReserve_populates [⟨7, "101", "Main", 1, 4⟩, ⟨8, "202", "Annex", 2, 12⟩]
    ⟨"", "", "2024-01-01", "9", "10"⟩ (initialPage ⟨"", "", "2024-01-01", "9", "10"⟩) 1
    ⟨8, "202", "Annex", 2, 12⟩ rfl (by decide) (by decide) (by decide) (by decide) (by decide)
    (by decide)).1

/-! ## The building selector -/

/-- C10. When the building selector changes to the value `v`, a request is
issued exactly when `v` is non-empty, and it is GET `/floors/v`; when `v` is
empty nothing is added to the trace and the options of the floor selector
become the single "Any floor" option with empty value. -/
theorem buildingChange_request (p : Page) (v : String) :
    (step p (Event.editSearch SearchField.building_id v)).trace =
        (if v = "" then p.trace
         else p.trace ++ [Effect.fetch
          { method := Method.GET, path := "/floors/" ++ v, query := [], body := none }]) ∧
      (step p (Event.editSearch SearchField.building_id v)).floorOptions =
        (if v = "" then "<option value=\"\">Any floor</option>" else p.floorOptions) ∧
      ((∃ r, r ∈ requestsOf
          ((step p (Event.editSearch SearchField.building_id v)).trace.drop p.trace.length)) ↔
        v ≠ "") := by
  by_cases hv : v = ""
  · subst hv
    simp [step, SearchForm.set, buildingChange, truthy, requestsOf]
  · have ht : truthy v = true := (truthy_iff v).2 hv
    simp [step, SearchForm.set, buildingChange, ht, hv, loadFloors, Page.emit, requestsOf]

/-! ## The fallback of the loading state -/

/-- C9. For an enabled submit button the listener schedules one fallback timer,
and its delay is 1000 milliseconds, not the 10000 of the comment above it. -/
theorem formSubmit_fallback_delay (html : String) :
    (formSubmit (some { innerHTML := html, disabled := false })).2 =
        [{ delay := 1000, restore := html }] ∧
      (formSubmit (some { innerHTML := html, disabled := false })).2.map Timer.delay
        ≠ [10000] := by
  simp [formSubmit]

/-! ## Searches and validation -/

theorem validateTimeRange_page (p : Page) :
    (validateTimeRange p).2.searchForm = p.searchForm ∧
      requestsOf (validateTimeRange p).2.trace = requestsOf p.trace := by
  unfold validateTimeRange
  by_cases h1 : (!truthy p.searchForm.start_hour || !truthy p.searchForm.end_hour) = true
  · simp [h1, Page.emit, requestsOf_append, requestsOf]
  · by_cases h2 :
        numLe (parseInt p.searchForm.end_hour) (parseInt p.searchForm.start_hour) = true
    · simp [h1, h2, Page.emit, requestsOf_append, requestsOf]
    · simp [h1, h2]

set_option maxRecDepth 1000000 in
/-- C7. The submit listener of the search form issues a search only when
`validateTimeRange` returns true; the refresh after a successful reservation
does not call it: after a search for 9 to 10, clearing the start hour, reserving
from the card and receiving a success response, a search with an empty start
hour is issued, for which `validateTimeRange` returns false. -/
theorem refresh_search_unvalidated :
    (∀ p : Page, requestsOf (searchSubmit p).trace = requestsOf p.trace ++
      (if (validateTimeRange p).1 = true then
        [{ method := Method.GET, path := "/search", query := searchParams p.searchForm,
           body := none }]
       else [])) ∧
    requestsOf (run (initialPage ⟨"", "", "2024-01-01", "9", "10"⟩)
      [Event.submitSearch,
       Event.searchResponse 0 [⟨7, "101", "Main", 1, 4⟩],
       Event.editSearch SearchField.start_hour "",
       Event.clickReserve 0,
       Event.editReservedBy "Alice",
       Event.submitReservation,
       Event.reservationResponse none]).trace =
      [{ method := Method.GET, path := "/search",
         query := searchParams ⟨"", "", "2024-01-01", "9", "10"⟩, body := none },
       { method := Method.POST, path := "/reserve", query := [],
         body := some ⟨"7", "2024-01-01", "9", "10", "Alice"⟩ },
       { method := Method.GET, path := "/search",
         query := searchParams ⟨"", "", "2024-01-01", "", "10"⟩, body := none }] ∧
    (validateTimeRange (initialPage ⟨"", "", "2024-01-01", "", "10"⟩)).1 = false := by
  refine ⟨?_, by decide, by decide⟩
  intro p
  have h := validateTimeRange_page p
  unfold searchSubmit
  by_cases hv : (validateTimeRange p).1 = true
  · simp only [hv, if_true]
    simp [searchRooms, Page.emit, requestsOf_append, requestsOf, h.1, h.2]
  · simp only [hv, if_false]
    simp [h.2]

end RoomScheduler
